import Mathlib

/-!
Verification of the text-to-knowledge-graph analysis pipeline of this
repository, a shallow embedding of the class `GoogleKnowledgeGraphService`
in `src/services/googleKnowledgeGraphService.ts` (the enhanced variant of
the service, which is the one the specification section 4 describes: its
fallback path combines extractor entities with frequency concepts).

Modelling conventions, stated once:
  - JS strings are Lean `String`; all character classes (`\w`, `\s`,
    `[A-Z]`, `[a-z]`) are modelled with their ASCII meaning, which is what
    the source exercises (JS `\w` is ASCII-only; the Unicode whitespace
    code points of `\s` beyond ASCII are not modelled).
  - JS numbers are modelled as `Rat` where fractional values occur
    (sizes, weights, scores) and as `Nat` for counts and indices.
    `Math.max(...[])` is `-Infinity` in JS and a finite number divided by
    `-Infinity` is `-0`; this one case is modelled explicitly (see
    `fallbackNodeScore`).
  - `Math.random() > 0.6` / `> 0.7` draws are modelled by an arbitrary
    Boolean oracle `rand : Nat -> Nat -> Bool` indexed by the node-pair
    indices of the edge loops; every theorem quantifies over the oracle.
  - `Date.now()` is modelled by a `now : Nat` parameter.
  - The network call `searchEntity` (an HTTP fetch) is modelled by its
    outcome, of type `EnrichmentOutcome`: a batch-level rejection of
    `Promise.all`, or a list of per-candidate results where `none` is a
    failed lookup (the method returns `null` on failure).
  - JS `Set` and `Map` preserve insertion order; they are modelled by
    lists with first-occurrence insertion (`addIfAbsent`, `bumpFreq`).
  - `Array.prototype.sort` is stable; `sortDescByCount` is a stable
    insertion sort by descending count, which agrees with the comparator
    `(a, b) => b - a` of the source.
-/

/-! ## Character classes (ASCII semantics of the JS regex classes) -/

/-- JS `\w`, i.e. `[A-Za-z0-9_]`. -/
def isWordChar (c : Char) : Bool :=
  c.isAlpha || c.isDigit || c == '_'

/-- JS `\s`, restricted to the ASCII whitespace characters. -/
def isWsChar (c : Char) : Bool :=
  c == ' ' || c == '\t' || c == '\n' || c == '\r' || c == '\x0b' || c == '\x0c'

/-- Sentence separators of `text.split(/[.!?]+/)`. -/
def isSentSep (c : Char) : Bool :=
  c == '.' || c == '!' || c == '?'

/-! ## JS string.split with a one-or-more character-class regex

`"a b".split(/\s+/) = ["a","b"]`, `" a".split(/\s+/) = ["","a"]`,
`"a ".split(/\s+/) = ["a",""]`, `"".split(/\s+/) = [""]`.  `splitFields`
accumulates the current field; `splitSkip` swallows a separator run. -/

mutual

def splitFields (p : Char → Bool) : List Char → List Char → List (List Char)
  | [], cur => [cur.reverse]
  | c :: cs, cur =>
    if p c then cur.reverse :: splitSkip p cs
    else splitFields p cs (c :: cur)

def splitSkip (p : Char → Bool) : List Char → List (List Char)
  | [] => [[]]
  | c :: cs => if p c then splitSkip p cs else splitFields p cs [c]

end

/-- JS `s.split(re)` for a one-or-more character-class regex given by `p`. -/
def jsSplit (p : Char → Bool) (s : String) : List String :=
  (splitFields p s.data []).map (fun cs => (⟨cs⟩ : String))

/-- `text.split(/\s+/)`. -/
def jsSplitWs (s : String) : List String := jsSplit isWsChar s

/-- `text.split(/[.!?]+/)`. -/
def jsSplitSent (s : String) : List String := jsSplit isSentSep s

/-- JS `s.split(sep)` for a single-character string separator: splits at
every occurrence, so `"a//b".split('/') = ["a","","b"]`. -/
def splitCharAux (sep : Char) : List Char → List Char → List (List Char)
  | [], cur => [cur.reverse]
  | c :: cs, cur =>
    if c == sep then cur.reverse :: splitCharAux sep cs []
    else splitCharAux sep cs (c :: cur)

def jsSplitChar (sep : Char) (s : String) : List String :=
  (splitCharAux sep s.data []).map (fun cs => (⟨cs⟩ : String))

/-! ## Basic JS string operations used by the service -/

/-- `word.replace(/[^\w]/g, '')`. -/
def cleanWord (s : String) : String := ⟨s.data.filter isWordChar⟩

/-- `s.toLowerCase()` on ASCII input. -/
def lowerStr (s : String) : String := ⟨s.data.map Char.toLower⟩

/-- `hay.includes(needle)`: `needle` occurs contiguously in `hay`. -/
def includesAux (needle : List Char) : List Char → Bool
  | [] => needle.isEmpty
  | hay@(_ :: rest) => needle.isPrefixOf hay || includesAux needle rest

def strIncludes (hay needle : String) : Bool := includesAux needle.data hay.data

/-- `s.trim()` (ASCII whitespace). -/
def jsTrim (s : String) : String :=
  ⟨((s.data.dropWhile isWsChar).reverse.dropWhile isWsChar).reverse⟩

/-- `s.split(' ')[0]`: the prefix up to the first literal space. -/
def firstSpaceWord (s : String) : String := ⟨s.data.takeWhile (fun c => c != ' ')⟩

/-- `s.substring(0, n)`. -/
def jsSubstringTo (s : String) (n : Nat) : String := ⟨s.data.take n⟩

/-- `/^[A-Z][a-z]+/.test(s)`: first char uppercase, second lowercase
(the unanchored `+` needs exactly one lowercase char to succeed). -/
def startsCapLow (s : String) : Bool :=
  match s.data with
  | c1 :: c2 :: _ => c1.isUpper && c2.isLower
  | _ => false

/-! ## Regex matchers of `extractEntities`

`sentence.match(/\b[A-Z][a-z]+(?:\s+[A-Z][a-z]+){1,3}\b/g)` and
`text.match(/\b[A-Z]{2,}\b/g)`, with the standard leftmost, greedy,
backtracking semantics.  Because the pattern elements after each `[a-z]+`
and `\s+` cannot match a character of the same class, those quantifiers
deterministically consume their maximal run; the only residual
backtracking is over the `{1,3}` group count, tried greedily from the
largest parsed count down. -/

/-- Word boundary before the match position: start of input or a
non-word character. -/
def startBoundary : Option Char → Bool
  | none => true
  | some c => !isWordChar c

/-- Word boundary after the match: end of input or a non-word character. -/
def endBoundary : List Char → Bool
  | [] => true
  | c :: _ => !isWordChar c

/-- Parse one `(?:\s+[A-Z][a-z]+)` group; returns the consumed characters
and the rest. -/
def parseCapGroup (cs : List Char) : Option (List Char × List Char) :=
  let ws := cs.takeWhile isWsChar
  let r1 := cs.dropWhile isWsChar
  if ws.isEmpty then none
  else
    match r1 with
    | [] => none
    | c :: r2 =>
      if c.isUpper then
        let low := r2.takeWhile Char.isLower
        let r3 := r2.dropWhile Char.isLower
        if low.isEmpty then none else some (ws ++ c :: low, r3)
      else none

/-- States after parsing `0, 1, ..., k <= n` further groups greedily:
each entry is (characters matched so far, rest). -/
def groupStates : Nat → List Char × List Char → List (List Char × List Char)
  | 0, st => [st]
  | n + 1, (m, r) =>
    match parseCapGroup r with
    | none => [(m, r)]
    | some (g, r2) => (m, r) :: groupStates n (m ++ g, r2)

/-- Try to match `[A-Z][a-z]+(?:\s+[A-Z][a-z]+){1,3}\b` at the head of
`cs` (the leading `\b` is the caller's responsibility).  Returns the
matched characters and the rest. -/
def matchMultiWordAt (cs : List Char) : Option (List Char × List Char) :=
  match cs with
  | [] => none
  | c :: rest =>
    if c.isUpper then
      let low := rest.takeWhile Char.isLower
      let r0 := rest.dropWhile Char.isLower
      if low.isEmpty then none
      else
        let sts := groupStates 3 (c :: low, r0)
        (sts.drop 1).reverse.find? (fun st => endBoundary st.2)
    else none

/-- Global scan for the multi-word pattern, with `fuel` at least the
input length plus one (each step consumes at least one character, so the
fuel is never exhausted before the input is). -/
def scanMultiWord (fuel : Nat) (prev : Option Char) (cs : List Char) :
    List (List Char) :=
  match fuel, cs with
  | 0, _ => []
  | _, [] => []
  | fuel + 1, c :: rest =>
    match (if startBoundary prev then matchMultiWordAt (c :: rest) else none) with
    | some (m, after) => m :: scanMultiWord fuel (m.getLast? |>.getD c) after
    | none => scanMultiWord fuel (some c) rest

/-- `sentence.match(/\b[A-Z][a-z]+(?:\s+[A-Z][a-z]+){1,3}\b/g)`
(`[]` models a `null` result). -/
def multiWordMatches (s : String) : List String :=
  (scanMultiWord (s.data.length + 1) none s.data).map (fun cs => (⟨cs⟩ : String))

/-- Global scan for `/\b[A-Z]{2,}\b/g`: a maximal uppercase run of length
at least two delimited by word boundaries (shortening the run can never
restore a boundary, so the match is the maximal run or nothing). -/
def scanAcronyms (fuel : Nat) (prev : Option Char) (cs : List Char) :
    List (List Char) :=
  match fuel, cs with
  | 0, _ => []
  | _, [] => []
  | fuel + 1, c :: rest =>
    if startBoundary prev && c.isUpper then
      let ups := rest.takeWhile Char.isUpper
      let r := rest.dropWhile Char.isUpper
      let run := c :: ups
      let lastc := run.getLast? |>.getD c
      if decide (2 ≤ run.length) && endBoundary r then
        run :: scanAcronyms fuel (some lastc) r
      else
        scanAcronyms fuel (some lastc) r
    else
      scanAcronyms fuel (some c) rest

/-- `text.match(/\b[A-Z]{2,}\b/g)`. -/
def acronymMatches (s : String) : List String :=
  (scanAcronyms (s.data.length + 1) none s.data).map (fun cs => (⟨cs⟩ : String))

/-! ## The entity extractor (source: `extractEntities`) -/

/-- JS `Set.add` with insertion order retained (`Array.from` of a `Set`
lists elements in first-insertion order). -/
def addIfAbsent (l : List String) (x : String) : List String :=
  if x ∈ l then l else l ++ [x]

/-- The `skipWords` set of `extractEntities`. -/
def skipWords : List String :=
  ["The", "This", "That", "These", "Those", "A", "An", "And", "Or", "But",
   "In", "On", "At", "To", "For", "Of", "With", "By", "From", "Up", "About",
   "Into", "Through", "During", "Before", "After", "Above", "Below", "Between",
   "Among", "Under", "Over", "Since", "Until", "While", "Because", "Although",
   "If", "When", "Where", "How", "Why", "What", "Which", "Who", "Whom", "Whose",
   "Can", "Could", "May", "Might", "Must", "Should", "Would", "Will", "Shall",
   "Do", "Does", "Did", "Have", "Has", "Had", "Be", "Is", "Are", "Was", "Were",
   "Been", "Being", "Get", "Got", "Getting", "Make", "Made", "Making", "Take",
   "Took", "Taking", "Come", "Came", "Coming", "Go", "Went", "Going", "See",
   "Saw", "Seeing", "Know", "Knew", "Knowing", "Think", "Thought", "Thinking",
   "Say", "Said", "Saying", "Tell", "Told", "Telling", "Ask", "Asked", "Asking",
   "Work", "Worked", "Working", "Play", "Played", "Playing", "Run", "Ran", "Running"]

/-- Loop body of the single-word pass: clean the word, accept if longer
than two characters, shaped `[A-Z][a-z]...`, and not a skip word. -/
def entityStep1 (acc : List String) (w : String) : List String :=
  let cleaned := cleanWord w
  if decide (2 < cleaned.length) && startsCapLow cleaned
      && !(skipWords.contains cleaned)
  then addIfAbsent acc cleaned else acc

/-- Loop body of the multi-word pass: accept a trimmed match longer than
five characters whose first word is not a skip word. -/
def entityStep2 (acc : List String) (m : String) : List String :=
  let trimmed := jsTrim m
  if decide (5 < trimmed.length)
      && !(skipWords.contains (firstSpaceWord trimmed))
  then addIfAbsent acc trimmed else acc

/-- Loop body of the acronym pass: accept matches of length two to six. -/
def entityStep3 (acc : List String) (t : String) : List String :=
  if decide (2 ≤ t.length) && decide (t.length ≤ 6)
  then addIfAbsent acc t else acc

/-- `extractEntities(text)`: capitalized single words not in `skipWords`,
2-4 word capitalized phrases longer than five characters whose first word
is not in `skipWords`, and all-uppercase acronyms of length two to six;
returned in first-insertion order of the backing `Set`. -/
def extractEntities (text : String) : List String :=
  let pass1 := (jsSplitWs text).foldl entityStep1 []
  let pass2 := (jsSplitSent text).foldl
    (fun acc s => (multiWordMatches s).foldl entityStep2 acc) pass1
  (acronymMatches text).foldl entityStep3 pass2

example : extractEntities "AI" = ["AI"] := by decide
example : extractEntities "Apple apple" = ["Apple"] := by decide
example :
    extractEntities "Apple Inc announced the iPhone in California." =
      ["Apple", "Inc", "California", "Apple Inc"] := by decide
example : extractEntities "" = [] := by decide

/-! ## Data model (source: the `KnowledgeGraphData` interface) -/

/-- The runtime value of the color lookup `colorMap[type] || '#6B7280'`.
The `color` field is declared `string` in the source, but a JS bracket
lookup consults the prototype chain: when `type` names an inherited
`Object.prototype` property (`toString`, `constructor`, `__proto__`,
...), `colorMap[type]` is that truthy inherited value — a built-in
function, or the prototype object itself for `__proto__` — so the `||`
fallback is not taken and the program stores a non-string.  Those
inherited values are modelled opaquely by the property name that
selected them. -/
inductive JsColorValue where
  | str (c : String)
  | protoValue (name : String)
deriving DecidableEq, Repr, Inhabited

/-- One knowledge-graph node. -/
structure GNode where
  id : String
  label : String
  size : Rat
  color : JsColorValue
  cluster : Nat
  type : String
  description : Option String
  score : Rat
deriving DecidableEq, Repr, Inhabited

/-- One knowledge-graph edge. -/
structure GEdge where
  source : String
  target : String
  weight : Rat
  relationship : String
deriving DecidableEq, Repr, Inhabited

structure GGraph where
  nodes : List GNode
  edges : List GEdge
deriving DecidableEq, Repr

/-- One insight cluster `{id, label, concepts}`. -/
structure GCluster where
  id : Nat
  label : String
  concepts : List String
deriving DecidableEq, Repr

structure GInsights where
  gaps : List String
  questions : List String
  clusters : List GCluster
deriving DecidableEq, Repr

structure GMetadata where
  entityCount : Nat
  timestamp : String
  source : String
deriving DecidableEq, Repr

/-- The top-level analysis result. -/
structure KnowledgeGraphData where
  graph : GGraph
  insights : GInsights
  summary : Option String
  metadata : GMetadata
deriving DecidableEq, Repr

/-- An entity returned by the Google Knowledge Graph search API
(source: the `GoogleKGEntity` interface).  The optional
`detailedDescription.articleBody` is flattened to one optional field. -/
structure GoogleKGEntity where
  atId : String
  atType : List String
  name : String
  description : Option String
  detailedDescriptionBody : Option String
  resultScore : Rat
deriving DecidableEq, Repr

/-! ## Shared helpers of both synthesizer paths -/

/-- `checkCoOccurrence(entity1, entity2, text)`: some sentence contains
both strings, case-insensitively.  The fallback edge loop inlines the
same computation on the node labels. -/
def checkCoOccurrence (entity1 entity2 text : String) : Bool :=
  (jsSplitSent text).any (fun sentence =>
    strIncludes (lowerStr sentence) (lowerStr entity1)
      && strIncludes (lowerStr sentence) (lowerStr entity2))

/-- All index pairs `(i, j)` with `i < j < n`, in the order of the nested
`for` loops of the source. -/
def pairsIdx (n : Nat) : List (Nat × Nat) :=
  ((List.range n).map (fun i =>
    (List.range n).filterMap (fun j => if i < j then some (i, j) else none))).flatten

/-- JS `Map` as an insertion-ordered association list: `set(w, get(w)+1)`
updates in place, a new key is appended. -/
def bumpFreq : List (String × Nat) → String → List (String × Nat)
  | [], w => [(w, 1)]
  | (k, c) :: rest, w =>
    if k == w then (k, c + 1) :: rest else (k, c) :: bumpFreq rest w

def buildFreq (ws : List String) : List (String × Nat) := ws.foldl bumpFreq []

/-- `wordFreq.get(w)` as an option. -/
def lookupFreq (m : List (String × Nat)) (w : String) : Option Nat :=
  (m.find? (fun p => p.1 == w)).map (fun p => p.2)

/-- `Math.max(...Array.from(wordFreq.values()))` for a nonempty map
(the empty case, `-Infinity`, is handled at the use site). -/
def maxFreq (m : List (String × Nat)) : Nat :=
  (m.map (fun p => p.2)).foldr max 0

/-- Stable insertion into a descending-by-count list: the new element
goes before the first entry with a count less than or equal to its own,
matching the stable JS sort with comparator `([,a],[,b]) => b - a`. -/
def insertByCount (x : String × Nat) : List (String × Nat) → List (String × Nat)
  | [] => [x]
  | y :: ys => if y.2 ≤ x.2 then x :: y :: ys else y :: insertByCount x ys

def sortDescByCount (l : List (String × Nat)) : List (String × Nat) :=
  l.foldr insertByCount []

/-- `[...new Set(l)]`. -/
def dedupKeepFirst (l : List String) : List String := l.foldl addIfAbsent []

/-! ## The two same-named color maps of the class

The class defines `getColorForType` twice.  The first definition
(alongside `buildKnowledgeGraph`) scans `Object.entries` in insertion
order and returns the first value whose key is contained in the type
string; the second definition (alongside the fallback path) is a plain
property lookup, `colorMap[type] || '#6B7280'`, and adds `Entity` and
`Concept` keys.  At runtime the later definition overwrites the earlier
one on the prototype, so every call site uses the exact-lookup version. -/

/-- The color table of the first (shadowed) definition. -/
def colorMapEnriched : List (String × String) :=
  [("Person", "#3B82F6"),
   ("Organization", "#10B981"),
   ("Place", "#F59E0B"),
   ("Thing", "#8B5CF6"),
   ("Event", "#EF4444"),
   ("CreativeWork", "#EC4899"),
   ("Product", "#06B6D4")]

/-- The first, substring-matching definition of `getColorForType`,
shadowed at runtime by the later definition below. -/
def getColorForTypeShadowed (t : String) : String :=
  match colorMapEnriched.find? (fun p => strIncludes t p.1) with
  | some p => p.2
  | none => "#6B7280"

/-- The color table of the second definition. -/
def colorMapFallback : List (String × String) :=
  [("Entity", "#3B82F6"),
   ("Concept", "#10B981"),
   ("Person", "#3B82F6"),
   ("Organization", "#10B981"),
   ("Place", "#F59E0B"),
   ("Thing", "#8B5CF6"),
   ("Event", "#EF4444"),
   ("CreativeWork", "#EC4899"),
   ("Product", "#06B6D4")]

/-- The property names every plain object literal inherits from
`Object.prototype` (the standard ECMAScript set, including the Annex B
accessors): bracket lookup at any of these names yields a truthy
non-string value, so `|| '#6B7280'` is not taken. -/
def objectPrototypeProps : List String :=
  ["constructor", "hasOwnProperty", "isPrototypeOf", "propertyIsEnumerable",
   "toLocaleString", "toString", "valueOf", "__defineGetter__",
   "__defineSetter__", "__lookupGetter__", "__lookupSetter__", "__proto__"]

/-- The second definition of `getColorForType`, the one in effect at
runtime: the bracket lookup `colorMap[type] || '#6B7280'`.  An own key
of the object literal (checked first, as in JS) yields that entry's
color; a name of an inherited `Object.prototype` property yields the
truthy inherited value, bypassing the gray fallback; any other type
yields `undefined` and hence the neutral gray. -/
def getColorForType (t : String) : JsColorValue :=
  match colorMapFallback.find? (fun p => p.1 == t) with
  | some p => .str p.2
  | none =>
    if objectPrototypeProps.contains t then .protoValue t
    else .str "#6B7280"

/-- `getClusterForType(type)`. -/
def getClusterForType (t : String) : Nat :=
  if strIncludes t ("Person") then 0
  else if strIncludes t ("Organization") then 1
  else if strIncludes t ("Place") then 2
  else if strIncludes t ("Event") then 3
  else if strIncludes t ("CreativeWork") then 4
  else 5

/-! ## Fallback path (source: `generateFallbackAnalysis`) -/

/-- The stopword alternation of the fallback word filter,
`/^(the|this|...|run)$/`. -/
def fallbackStop : List String :=
  ["the", "this", "that", "with", "from", "they", "have", "been", "were",
   "will", "would", "could", "should", "might", "must", "shall", "does",
   "did", "has", "had", "are", "was", "for", "and", "but", "not", "you",
   "can", "may", "get", "got", "make", "take", "come", "went", "see",
   "know", "say", "tell", "ask", "work", "play", "run"]

/-- The lowercased words of length greater than four surviving the
stopword filter. -/
def fallbackWords (text : String) : List String :=
  ((jsSplitWs (lowerStr text)).filter (fun w => decide (4 < w.length))).filter
    (fun w => !(fallbackStop.contains w))

def fallbackWordFreq (text : String) : List (String × Nat) :=
  buildFreq (fallbackWords text)

/-- Top concepts by descending frequency, capped at ten. -/
def fallbackTopConcepts (text : String) : List String :=
  ((sortDescByCount (fallbackWordFreq text)).take 10).map (fun p => p.1)

/-- Up to eight extractor entities plus up to seven frequency concepts,
deduplicated and capped at twelve. -/
def fallbackUniqueNodes (text : String) : List String :=
  (dedupKeepFirst ((extractEntities text).take 8
    ++ (fallbackTopConcepts text).take 7)).take 12

/-- `item.toLowerCase().replace(/\s+/g, '-')`. -/
def slugOf (item : String) : String :=
  String.intercalate "-" (jsSplitWs (lowerStr item))

/-- `frequency / Math.max(...Array.from(wordFreq.values()))`.  When the
map is empty the JS maximum is `-Infinity` and the quotient is `-0`,
modelled as `0`.  The nonempty case is written `mkRat` so that it
evaluates by kernel reduction; `mkRat n d = n / d` (see
`fallbackNodeScore_eq_div`). -/
def fallbackNodeScore (m : List (String × Nat)) (frequency : Nat) : Rat :=
  if m.isEmpty then 0 else mkRat frequency (maxFreq m)

/-- Node construction of the fallback path, for entry `item` at position
`index` of the candidate list. -/
def fallbackMkNode (text : String) (p : Nat × String) : GNode :=
  let index := p.1
  let item := p.2
  let isEntity := (extractEntities text).contains item
  -- wordFreq.get(...) returns a count of at least one or undefined,
  -- so `|| 1` coincides with defaulting the absent case to one
  let frequency := (lookupFreq (fallbackWordFreq text) (lowerStr item)).getD 1
  { id := slugOf item
    label := item
    -- Math.min(frequency * 3 + 5, 20): an integer-valued minimum of
    -- integers, computed in Nat and cast
    size := ((min (frequency * 3 + 5) 20 : Nat) : Rat)
    color := if isEntity then getColorForType ("Entity") else getColorForType ("Concept")
    cluster := if isEntity then 0 else index / 4 + 1
    type := if isEntity then "Entity" else "Concept"
    description := none
    score := fallbackNodeScore (fallbackWordFreq text) frequency }

def fallbackNodes (text : String) : List GNode :=
  (fallbackUniqueNodes text).enum.map (fallbackMkNode text)

/-- The edge candidate of node pair `(i, j)` in the fallback loop:
an edge if the labels co-occur in a sentence, or if the nodes share a
cluster and the random draw `Math.random() > 0.6` succeeds. -/
def fallbackEdgeOfPair (nodes : List GNode) (text : String)
    (rand : Nat → Nat → Bool) (p : Nat × Nat) : Option GEdge :=
  match nodes.get? p.1, nodes.get? p.2 with
  | some node1, some node2 =>
    let coOccurs := checkCoOccurrence node1.label node2.label text
    if coOccurs || (node1.cluster == node2.cluster && rand p.1 p.2) then
      some { source := node1.id
             target := node2.id
             -- 0.8 and 0.4, written as kernel-reducible rationals
             weight := if coOccurs then mkRat 4 5 else mkRat 2 5
             relationship := if coOccurs then "co-occurs" else "related" }
    else none
  | _, _ => none

def mkFallbackEdges (nodes : List GNode) (text : String)
    (rand : Nat → Nat → Bool) : List GEdge :=
  (pairsIdx nodes.length).filterMap (fallbackEdgeOfPair nodes text rand)

/-- `generateEnhancedInsights(nodes, entities, concepts, text)`. -/
def generateEnhancedInsights (nodes : List GNode) (entities concepts : List String)
    (text : String) : GInsights :=
  let questions :=
    (if 0 < entities.length then
      ["How do " ++ String.intercalate " and " (entities.take 2)
        ++ " relate to the main topic?"]
     else [])
    ++ (if 0 < concepts.length then
      ["What are the implications of "
        ++ String.intercalate " and " (concepts.take 2) ++ "?"]
     else [])
    ++ ["What additional context would help understand these relationships?"]
  let gaps :=
    ["Consider exploring the historical context of these concepts",
     "Additional relationships between key entities could provide insights",
     "The temporal aspects of these connections might reveal patterns"]
  let clusters :=
    ([⟨0, "Key Entities", entities.take 5⟩,
      ⟨1, "Main Concepts", concepts.take 5⟩] : List GCluster).filter
      (fun cluster => !cluster.concepts.isEmpty)
  { gaps := gaps, questions := questions, clusters := clusters }

/-- `generateFallbackAnalysis(text)`, with the random draws and the
clock passed explicitly. -/
def generateFallbackAnalysis (text : String) (rand : Nat → Nat → Bool)
    (now : Nat) : KnowledgeGraphData :=
  let entities := extractEntities text
  let topConcepts := fallbackTopConcepts text
  let nodes := fallbackNodes text
  let edges := mkFallbackEdges nodes text rand
  { graph := ⟨nodes, edges⟩
    insights := generateEnhancedInsights nodes entities topConcepts text
    summary := some ("Analyzed " ++ toString nodes.length
      ++ " key concepts and entities using enhanced text analysis. Identified "
      ++ toString entities.length ++ " entities and "
      ++ toString topConcepts.length ++ " main concepts.")
    metadata := ⟨nodes.length, toString now, "enhanced-fallback"⟩ }

example :
    (fallbackNodes "Apple apple").map (fun n => (n.id, n.label, n.cluster)) =
      [("apple", "Apple", 0), ("apple", "apple", 1)] := by decide
example :
    (mkFallbackEdges (fallbackNodes "Apple apple") "Apple apple" (fun _ _ => false)) =
      [⟨"apple", "apple", mkRat 4 5, "co-occurs"⟩] := by decide
example : (fallbackNodes "NASA").map (fun n => n.score) = [0] := by decide

/-! ## Enriched path (source: `buildKnowledgeGraph` and friends) -/

/-- JS `a || b` on possibly-undefined strings: the empty string is falsy. -/
def jsOrStr (a b : Option String) : Option String :=
  match a with
  | some s => if s == "" then b else some s
  | none => b

/-- `node.type.split('/').pop() || 'Thing'` (the last path segment of a
schema type, defaulting to `Thing` when it is empty). -/
def lastTypeSeg (t : String) : String :=
  let last := (jsSplitChar '/' t).getLastD ""
  if last == "" then "Thing" else last

/-- `getTopTypes(nodes)`: count base types in encounter order (modelling
the JS object as an insertion-ordered association list; integer-like keys,
which JS would reorder, do not occur for type names), sort by descending
count (stable), take three. -/
def getTopTypes (nodes : List GNode) : List String :=
  let typeCounts := nodes.foldl (fun m node => bumpFreq m (lastTypeSeg node.type)) []
  ((sortDescByCount typeCounts).take 3).map (fun p => p.1)

/-- Node construction of the enriched path for one Google KG entity at
position `index`. -/
def enrichedMkNode (p : Nat × GoogleKGEntity) : GNode :=
  let index := p.1
  let entity := p.2
  -- const types = entity['@type'] || []; const primaryType = types[0] || 'Thing'
  let t0 := entity.atType.headD ""
  let primaryType := if t0 == "" then "Thing" else t0
  { id := if entity.atId == "" then "entity-" ++ toString index else entity.atId
    label := entity.name
    size := min (entity.resultScore * 2) 20 + 5
    color := getColorForType primaryType
    cluster := getClusterForType primaryType
    type := primaryType
    description := jsOrStr entity.description
      (entity.detailedDescriptionBody.map (fun b => jsSubstringTo b 200))
    score := entity.resultScore }

/-- The edge candidate of pair `(i, j)` in the enriched loop.  Unlike the
fallback loop, the relationship label is keyed on the shared cluster, not
on co-occurrence. -/
def enrichedEdgeOfPair (nodes : List GNode) (originalText : String)
    (rand : Nat → Nat → Bool) (p : Nat × Nat) : Option GEdge :=
  match nodes.get? p.1, nodes.get? p.2 with
  | some node1, some node2 =>
    let coOccurs := checkCoOccurrence node1.label node2.label originalText
    let sharedType := node1.cluster == node2.cluster
    if coOccurs || (sharedType && rand p.1 p.2) then
      some { source := node1.id
             target := node2.id
             weight := if coOccurs then mkRat 4 5 else mkRat 2 5
             relationship := if sharedType then "related" else "co-occurs" }
    else none
  | _, _ => none

def mkEnrichedEdges (nodes : List GNode) (originalText : String)
    (rand : Nat → Nat → Bool) : List GEdge :=
  (pairsIdx nodes.length).filterMap (enrichedEdgeOfPair nodes originalText rand)

/-- `generateInsights(nodes, originalText)`: `nodes[i]?.label` interpolates
the string `undefined` when the node is missing, and any question
mentioning `undefined` is filtered out. -/
def generateInsights (nodes : List GNode) (originalText : String) : GInsights :=
  let l0 := ((nodes.get? 0).map (fun n => n.label)).getD "undefined"
  let l1 := ((nodes.get? 1).map (fun n => n.label)).getD "undefined"
  let questions :=
    (["What is the relationship between " ++ l0 ++ " and " ++ l1 ++ "?",
      "How do these entities connect to the main topic?",
      "What additional context would help understand these relationships?"]).filter
      (fun q => !(strIncludes q ("undefined")))
  let gaps :=
    ["Consider exploring the historical context of these entities",
     "Additional relationships between entities could be investigated",
     "The temporal aspects of these connections might provide insights"]
  let clusters :=
    ([⟨0, "People & Organizations",
        ((nodes.filter (fun n => n.cluster ≤ 1)).map (fun n => n.label)).take 5⟩,
      ⟨1, "Places & Events",
        ((nodes.filter (fun n => 2 ≤ n.cluster && n.cluster ≤ 3)).map
          (fun n => n.label)).take 5⟩,
      ⟨2, "Concepts & Things",
        ((nodes.filter (fun n => 4 ≤ n.cluster)).map (fun n => n.label)).take 5⟩] :
      List GCluster).filter (fun cluster => !cluster.concepts.isEmpty)
  { gaps := gaps, questions := questions, clusters := clusters }

/-- `buildKnowledgeGraph(entities, originalText)`. -/
def buildKnowledgeGraph (entities : List GoogleKGEntity) (originalText : String)
    (rand : Nat → Nat → Bool) (now : Nat) : KnowledgeGraphData :=
  let nodes := entities.enum.map enrichedMkNode
  let edges := mkEnrichedEdges nodes originalText rand
  { graph := ⟨nodes, edges⟩
    insights := generateInsights nodes originalText
    summary := some ("Identified " ++ toString nodes.length
      ++ " entities from Google Knowledge Graph, including "
      ++ String.intercalate ", " (getTopTypes nodes) ++ ".")
    metadata := ⟨nodes.length, toString now, "google-kg"⟩ }

/-! ## The analysis entry point (source: `analyzeText`) -/

/-- The outcome of the parallel enrichment lookups
(`Promise.all(entities.slice(0,10).map(entity => this.searchEntity(entity)))`):
either the whole batch rejects, or each of the issued lookups resolves,
with `none` standing for the `null` a failed single lookup returns. -/
inductive EnrichmentOutcome where
  | batchError
  | results (rs : List (Option (List GoogleKGEntity)))
deriving DecidableEq

/-- `knowledgeEntities.filter(r => r !== null).flat().slice(0, 15)`. -/
def validEntitiesOf (rs : List (Option (List GoogleKGEntity))) :
    List GoogleKGEntity :=
  ((rs.filterMap id).flatten).take 15

/-- `analyzeText(text)`.  `useGoogleKG` is the credential flag
(`!!this.apiKey`); the `try/catch` around the enrichment branch is
modelled by the `batchError` outcome routing to the fallback. -/
def analyzeText (useGoogleKG : Bool) (outcome : EnrichmentOutcome)
    (text : String) (rand : Nat → Nat → Bool) (now : Nat) : KnowledgeGraphData :=
  if !useGoogleKG then generateFallbackAnalysis text rand now
  else
    match outcome with
    | .batchError => generateFallbackAnalysis text rand now
    | .results rs =>
      let validEntities := validEntitiesOf rs
      if validEntities.length == 0 then generateFallbackAnalysis text rand now
      else buildKnowledgeGraph validEntities text rand now

/-- `generateFollowUpQuestions(text)`: the questions of a full analysis. -/
def generateFollowUpQuestions (useGoogleKG : Bool) (outcome : EnrichmentOutcome)
    (text : String) (rand : Nat → Nat → Bool) (now : Nat) : List String :=
  (analyzeText useGoogleKG outcome text rand now).insights.questions

/-! ## Helper lemmas -/

theorem mkRat_two_fifths : (mkRat 2 5 : Rat) = 2/5 := by
  rw [Rat.mkRat_eq_div]; norm_num

theorem mkRat_four_fifths : (mkRat 4 5 : Rat) = 4/5 := by
  rw [Rat.mkRat_eq_div]; norm_num

/-- Inserting into a duplicate-free list of `P`-elements an element
satisfying `P` preserves both properties. -/
theorem addIfAbsent_sound (P : String → Prop) {l : List String} {x : String}
    (h : l.Nodup ∧ ∀ s ∈ l, P s) (hx : P x) :
    (addIfAbsent l x).Nodup ∧ ∀ s ∈ addIfAbsent l x, P s := by
  by_cases hmem : x ∈ l
  · simpa [addIfAbsent, hmem] using h
  · unfold addIfAbsent
    rw [if_neg hmem]
    refine ⟨h.1.append (List.nodup_singleton x)
      (fun a ha hb => by rw [List.mem_singleton] at hb; exact hmem (hb ▸ ha)), ?_⟩
    intro s hs
    rcases List.mem_append.mp hs with h1 | h1
    · exact h.2 s h1
    · rw [List.mem_singleton] at h1
      exact h1 ▸ hx

/-- A fold whose step preserves an invariant preserves it overall. -/
theorem foldl_inv {β : Type} (Q : List String → Prop)
    (g : List String → β → List String)
    (hstep : ∀ acc b, Q acc → Q (g acc b)) (bs : List β) :
    ∀ acc, Q acc → Q (bs.foldl g acc) := by
  induction bs with
  | nil => intro acc h; simpa using h
  | cons b bs ih =>
    intro acc h
    rw [List.foldl_cons]
    exact ih _ (hstep acc b h)

/-- The invariant carried through `extractEntities`: no duplicates and
every entry at least two characters long. -/
theorem entityStep1_inv (acc : List String) (w : String)
    (h : acc.Nodup ∧ ∀ s ∈ acc, 2 ≤ s.length) :
    (entityStep1 acc w).Nodup ∧ ∀ s ∈ entityStep1 acc w, 2 ≤ s.length := by
  unfold entityStep1
  by_cases hc : (decide (2 < (cleanWord w).length) && startsCapLow (cleanWord w)
      && !(skipWords.contains (cleanWord w))) = true
  · rw [if_pos hc]
    have hlen : 2 < (cleanWord w).length := by
      simp only [Bool.and_eq_true, decide_eq_true_eq] at hc
      exact hc.1.1
    exact addIfAbsent_sound _ h (by omega)
  · rw [if_neg hc]; exact h

theorem entityStep2_inv (acc : List String) (m : String)
    (h : acc.Nodup ∧ ∀ s ∈ acc, 2 ≤ s.length) :
    (entityStep2 acc m).Nodup ∧ ∀ s ∈ entityStep2 acc m, 2 ≤ s.length := by
  unfold entityStep2
  by_cases hc : (decide (5 < (jsTrim m).length)
      && !(skipWords.contains (firstSpaceWord (jsTrim m)))) = true
  · rw [if_pos hc]
    have hlen : 5 < (jsTrim m).length := by
      simp only [Bool.and_eq_true, decide_eq_true_eq] at hc
      exact hc.1
    exact addIfAbsent_sound _ h (by omega)
  · rw [if_neg hc]; exact h

theorem entityStep3_inv (acc : List String) (t : String)
    (h : acc.Nodup ∧ ∀ s ∈ acc, 2 ≤ s.length) :
    (entityStep3 acc t).Nodup ∧ ∀ s ∈ entityStep3 acc t, 2 ≤ s.length := by
  unfold entityStep3
  by_cases hc : (decide (2 ≤ t.length) && decide (t.length ≤ 6)) = true
  · rw [if_pos hc]
    have hlen : 2 ≤ t.length := by
      simp only [Bool.and_eq_true, decide_eq_true_eq] at hc
      exact hc.1
    exact addIfAbsent_sound _ h hlen
  · rw [if_neg hc]; exact h

theorem extractEntities_inv (text : String) :
    (extractEntities text).Nodup ∧ ∀ s ∈ extractEntities text, 2 ≤ s.length := by
  unfold extractEntities
  refine foldl_inv _ _ entityStep3_inv _ _ ?_
  refine foldl_inv _ _
    (fun acc s h => foldl_inv _ _ entityStep2_inv (multiWordMatches s) acc h) _ _ ?_
  exact foldl_inv _ _ entityStep1_inv _ _
    ⟨List.nodup_nil, fun s hs => absurd hs (List.not_mem_nil s)⟩

theorem dedupKeepFirst_nodup (l : List String) : (dedupKeepFirst l).Nodup := by
  unfold dedupKeepFirst
  exact (foldl_inv (fun acc => acc.Nodup) addIfAbsent
    (fun acc b h => (addIfAbsent_sound (fun _ => True) ⟨h, fun _ _ => trivial⟩ trivial).1)
    l [] List.nodup_nil)

theorem fallbackUniqueNodes_nodup (text : String) :
    (fallbackUniqueNodes text).Nodup := by
  unfold fallbackUniqueNodes
  exact (dedupKeepFirst_nodup _).sublist (List.take_sublist _ _)

/-- The labels of the fallback nodes are exactly the candidate list. -/
theorem fallbackNodes_map_label (text : String) :
    (fallbackNodes text).map (fun n => n.label) = fallbackUniqueNodes text := by
  unfold fallbackNodes
  rw [List.map_map]
  have h : ((fun n : GNode => n.label) ∘ fallbackMkNode text) = Prod.snd := by
    funext p; rfl
  rw [h, List.enum_map_snd]

/-- Two fallback nodes at distinct positions carry distinct labels. -/
theorem fallbackNodes_get?_label_ne {text : String} {i j : Nat} {n1 n2 : GNode}
    (hij : i ≠ j) (h1 : (fallbackNodes text).get? i = some n1)
    (h2 : (fallbackNodes text).get? j = some n2) : n1.label ≠ n2.label := by
  intro hlab
  have hnd : ((fallbackNodes text).map (fun n => n.label)).Nodup := by
    rw [fallbackNodes_map_label]
    exact fallbackUniqueNodes_nodup text
  have e1 : ((fallbackNodes text).map (fun n => n.label)).get? i = some n1.label := by
    rw [List.get?_map, h1]; rfl
  have e2 : ((fallbackNodes text).map (fun n => n.label)).get? j = some n2.label := by
    rw [List.get?_map, h2]; rfl
  have hi : i < ((fallbackNodes text).map (fun n => n.label)).length := by
    obtain ⟨hlt, _⟩ := List.get?_eq_some.mp e1
    exact hlt
  exact hij (List.get?_inj hi hnd (by rw [e1, e2, hlab]))

theorem pairsIdx_lt {n : Nat} {p : Nat × Nat} (hp : p ∈ pairsIdx n) :
    p.1 < p.2 ∧ p.2 < n := by
  unfold pairsIdx at hp
  rw [List.mem_flatten] at hp
  obtain ⟨l, hl, hpl⟩ := hp
  rw [List.mem_map] at hl
  obtain ⟨i, _, rfl⟩ := hl
  rw [List.mem_filterMap] at hpl
  obtain ⟨j, hj, hij⟩ := hpl
  rw [List.mem_range] at hj
  by_cases h : i < j
  · rw [if_pos h] at hij
    injection hij with h2
    subst h2
    exact ⟨h, hj⟩
  · rw [if_neg h] at hij
    cases hij

/-- Every edge of the fallback loop joins the nodes of some index pair
`i < j`, carries their ids as source and target, requires sentence
co-occurrence or a shared cluster, and weighs `2/5` or `4/5`
(`0.4` or `0.8`). -/
theorem mem_mkFallbackEdges {nodes : List GNode} {text : String}
    {rand : Nat → Nat → Bool} {e : GEdge}
    (he : e ∈ mkFallbackEdges nodes text rand) :
    ∃ i j n1 n2, i < j ∧ nodes.get? i = some n1 ∧ nodes.get? j = some n2 ∧
      e.source = n1.id ∧ e.target = n2.id ∧
      (checkCoOccurrence n1.label n2.label text = true ∨ n1.cluster = n2.cluster) ∧
      (e.weight = mkRat 2 5 ∨ e.weight = mkRat 4 5) := by
  unfold mkFallbackEdges at he
  rw [List.mem_filterMap] at he
  obtain ⟨p, hp, hpe⟩ := he
  obtain ⟨hij, _⟩ := pairsIdx_lt hp
  unfold fallbackEdgeOfPair at hpe
  cases h1 : nodes.get? p.1 with
  | none => rw [h1] at hpe; cases hpe
  | some n1 =>
    cases h2 : nodes.get? p.2 with
    | none => rw [h1, h2] at hpe; cases hpe
    | some n2 =>
      rw [h1, h2] at hpe
      dsimp only at hpe
      by_cases hco : checkCoOccurrence n1.label n2.label text = true
      · rw [if_pos (by rw [hco]; rfl)] at hpe
        injection hpe with h3
        subst h3
        refine ⟨p.1, p.2, n1, n2, hij, h1, h2, rfl, rfl, Or.inl hco, ?_⟩
        simp only [hco]
        exact Or.inr (by simp)
      · by_cases hcl : (n1.cluster == n2.cluster && rand p.1 p.2) = true
        · rw [if_pos (by rw [hcl]; simp)] at hpe
          injection hpe with h3
          subst h3
          have hcof : checkCoOccurrence n1.label n2.label text = false :=
            Bool.eq_false_iff.mpr hco
          refine ⟨p.1, p.2, n1, n2, hij, h1, h2, rfl, rfl, ?_, ?_⟩
          · have hb := hcl
            simp only [Bool.and_eq_true, beq_iff_eq] at hb
            exact Or.inr hb.1
          · simp only [hcof]
            exact Or.inl (by simp)
        · rw [if_neg ?_] at hpe
          · cases hpe
          · intro hcontra
            simp only [Bool.or_eq_true] at hcontra
            rcases hcontra with h | h
            · exact hco h
            · exact hcl h

theorem bumpFreq_val_ge_one : ∀ (m : List (String × Nat)),
    (∀ q ∈ m, 1 ≤ q.2) → ∀ w, ∀ q ∈ bumpFreq m w, 1 ≤ q.2 := by
  intro m
  induction m with
  | nil =>
    intro _ w q hq
    simp only [bumpFreq, List.mem_singleton] at hq
    subst hq
    exact le_refl 1
  | cons kv rest ih =>
    obtain ⟨k, c⟩ := kv
    intro h w q hq
    simp only [bumpFreq] at hq
    by_cases hk : (k == w) = true
    · rw [if_pos hk] at hq
      rcases List.mem_cons.mp hq with rfl | hq2
      · exact Nat.le_add_left 1 c
      · exact h q (List.mem_cons_of_mem _ hq2)
    · rw [if_neg hk] at hq
      rcases List.mem_cons.mp hq with rfl | hq2
      · exact h (k, c) (List.mem_cons_self _ _)
      · exact ih (fun q hq => h q (List.mem_cons_of_mem _ hq)) w q hq2

theorem buildFreq_val_ge_one (ws : List String) : ∀ q ∈ buildFreq ws, 1 ≤ q.2 := by
  unfold buildFreq
  have key : ∀ (ws : List String) (m : List (String × Nat)),
      (∀ q ∈ m, 1 ≤ q.2) → ∀ q ∈ ws.foldl bumpFreq m, 1 ≤ q.2 := by
    intro ws
    induction ws with
    | nil => intro m h; simpa using h
    | cons w ws ih =>
      intro m h
      rw [List.foldl_cons]
      exact ih _ (bumpFreq_val_ge_one m h w)
  exact key ws [] (by simp)

theorem lookupFreq_mem {m : List (String × Nat)} {w : String} {c : Nat}
    (h : lookupFreq m w = some c) : ∃ q ∈ m, q.2 = c := by
  unfold lookupFreq at h
  cases hf : m.find? (fun p => p.1 == w) with
  | none => rw [hf] at h; cases h
  | some q =>
    rw [hf] at h
    injection h with h2
    exact ⟨q, List.mem_of_find?_eq_some hf, h2⟩

theorem le_foldr_max {v : Nat} : ∀ {l : List Nat}, v ∈ l → v ≤ l.foldr max 0 := by
  intro l
  induction l with
  | nil => intro h; cases h
  | cons a l ih =>
    intro h
    rcases List.mem_cons.mp h with rfl | h2
    · exact le_max_left _ _
    · exact le_trans (ih h2) (le_max_right _ _)

theorem val_le_maxFreq {m : List (String × Nat)} {q : String × Nat}
    (h : q ∈ m) : q.2 ≤ maxFreq m := by
  unfold maxFreq
  exact le_foldr_max (List.mem_map.mpr ⟨q, h, rfl⟩)

theorem one_le_maxFreq {m : List (String × Nat)} (hne : m ≠ [])
    (hv : ∀ q ∈ m, 1 ≤ q.2) : 1 ≤ maxFreq m := by
  cases m with
  | nil => exact absurd rfl hne
  | cons q rest =>
    have h1 : 1 ≤ q.2 := hv q (List.mem_cons_self _ _)
    have h2 : q.2 ≤ maxFreq (q :: rest) := val_le_maxFreq (List.mem_cons_self _ _)
    omega

/-- In an association list with duplicate-free keys, `find?` at a present
key returns exactly that entry. -/
theorem find?_assoc_key {l : List (String × String)}
    (hnd : (l.map (fun p => p.1)).Nodup) :
    ∀ {t c : String}, (t, c) ∈ l → l.find? (fun p => p.1 == t) = some (t, c) := by
  induction l with
  | nil => intro t c h; cases h
  | cons kv rest ih =>
    intro t c h
    rcases List.mem_cons.mp h with rfl | h2
    · rw [List.find?_cons_of_pos]
      simp
    · have hk : kv.1 ≠ t := by
        intro he
        have : t ∈ rest.map (fun p => p.1) :=
          List.mem_map.mpr ⟨(t, c), h2, rfl⟩
        rw [List.map_cons, List.nodup_cons] at hnd
        exact hnd.1 (he ▸ this)
      rw [List.find?_cons_of_neg]
      · exact ih (by rw [List.map_cons, List.nodup_cons] at hnd; exact hnd.2) h2
      · simp [hk]

/-- The deterministic, co-occurrence-only part of the fallback edge loop:
the edge the pair `(i, j)` contributes independently of the random draw. -/
def coOccurEdgeOfPair (nodes : List GNode) (text : String) (p : Nat × Nat) :
    Option GEdge :=
  match nodes.get? p.1, nodes.get? p.2 with
  | some n1, some n2 =>
    if checkCoOccurrence n1.label n2.label text then
      some ⟨n1.id, n2.id, mkRat 4 5, "co-occurs"⟩
    else none
  | _, _ => none

theorem mkRat_two_ne_four_fifths : (mkRat 2 5 : Rat) ≠ mkRat 4 5 := by decide

/-- Per pair: either the pair co-occurs, and it contributes the same
weight-`4/5` edge in every run, or it does not, and whatever it
contributes (nothing, or a random same-cluster edge) weighs `2/5`. -/
theorem fallbackEdge_vs_coOccur (nodes : List GNode) (text : String)
    (rand : Nat → Nat → Bool) (p : Nat × Nat) :
    (∃ c, coOccurEdgeOfPair nodes text p = some c ∧
        fallbackEdgeOfPair nodes text rand p = some c ∧ c.weight = mkRat 4 5)
    ∨ (coOccurEdgeOfPair nodes text p = none ∧
        (fallbackEdgeOfPair nodes text rand p = none ∨
         ∃ e, fallbackEdgeOfPair nodes text rand p = some e ∧ e.weight = mkRat 2 5)) := by
  unfold fallbackEdgeOfPair coOccurEdgeOfPair
  cases h1 : nodes.get? p.1 with
  | none => right; exact ⟨rfl, Or.inl rfl⟩
  | some n1 =>
    cases h2 : nodes.get? p.2 with
    | none => right; exact ⟨rfl, Or.inl rfl⟩
    | some n2 =>
      dsimp only
      by_cases hco : checkCoOccurrence n1.label n2.label text = true
      · left
        refine ⟨⟨n1.id, n2.id, mkRat 4 5, "co-occurs"⟩, by rw [if_pos hco], ?_, rfl⟩
        rw [if_pos (by rw [hco]; rfl)]
        simp [hco]
      · right
        have hcof := Bool.eq_false_iff.mpr hco
        refine ⟨by rw [if_neg hco], ?_⟩
        by_cases hcl : (n1.cluster == n2.cluster && rand p.1 p.2) = true
        · right
          refine ⟨⟨n1.id, n2.id, mkRat 2 5, "related"⟩, ?_, rfl⟩
          rw [if_pos (by rw [hcof, hcl]; rfl)]
          simp [hcof]
        · left
          rw [if_neg (by
            intro hcontra
            simp only [Bool.or_eq_true] at hcontra
            rcases hcontra with h | h
            · exact hco h
            · exact hcl h)]

/-- The weight-`4/5` edges of a fallback run are exactly the
co-occurrence edges, independently of the random draws. -/
theorem filter_fallbackEdges_eq (nodes : List GNode) (text : String)
    (rand : Nat → Nat → Bool) :
    (mkFallbackEdges nodes text rand).filter
        (fun e => decide (e.weight = mkRat 4 5))
      = (pairsIdx nodes.length).filterMap (coOccurEdgeOfPair nodes text) := by
  unfold mkFallbackEdges
  induction pairsIdx nodes.length with
  | nil => rfl
  | cons p ps ih =>
    rcases fallbackEdge_vs_coOccur nodes text rand p with
      ⟨c, hC, hF, hw⟩ | ⟨hC, hF⟩
    · simp only [List.filterMap_cons, hC, hF, List.filter_cons]
      rw [if_pos (by simp [hw])]
      rw [ih]
    · rcases hF with hF | ⟨e, hF, hw⟩
      · simp only [List.filterMap_cons, hC, hF]
        exact ih
      · simp only [List.filterMap_cons, hC, hF, List.filter_cons]
        rw [if_neg (by simp [hw, mkRat_two_ne_four_fifths])]
        exact ih

/-! ## Claim theorems -/

/-- Claim C1: `analyzeText` always returns a complete `KnowledgeGraphData`
and never throws: the embedding is a total function, and every
enrichment-path failure mode is routed to the fallback analysis — the
absent credential, a batch-level exception of the parallel lookups, and
an empty valid-entity list after filtering all yield exactly
`generateFallbackAnalysis(text)`.  (Null or undefined input is not a
value of the string type and is the one case the source lets escape to
the caller.) -/
theorem analyzeText_failure_routes_to_fallback (text : String)
    (o : EnrichmentOutcome) (rand : Nat → Nat → Bool) (now : Nat) :
    analyzeText false o text rand now = generateFallbackAnalysis text rand now
    ∧ analyzeText true .batchError text rand now
        = generateFallbackAnalysis text rand now
    ∧ (∀ rs, validEntitiesOf rs = [] →
        analyzeText true (.results rs) text rand now
          = generateFallbackAnalysis text rand now) := by
  refine ⟨rfl, rfl, ?_⟩
  intro rs h
  show (if (validEntitiesOf rs).length == 0 then
      generateFallbackAnalysis text rand now
    else buildKnowledgeGraph (validEntitiesOf rs) text rand now) = _
  rw [h]
  rfl

/-- Witness for C1 at a concrete input: a lookup batch that resolves but
yields no usable entity routes to the fallback result. -/
theorem analyzeText_failure_routes_to_fallback_witness :
    analyzeText true (.results [some []]) "Tech firms merge." (fun _ _ => true) 5
      = generateFallbackAnalysis "Tech firms merge." (fun _ _ => true) 5 :=
  (analyzeText_failure_routes_to_fallback "Tech firms merge." .batchError
    (fun _ _ => true) 5).2.2 [some []] (by decide)

/-- Counterexample to claim C2 as stated: the acronym pass accepts
all-uppercase tokens of length two, so `extractEntities "AI"` returns the
two-character string `"AI"`, refuting `every returned string has
length > 2`. -/
theorem extractEntities_length_claim_cex :
    extractEntities "AI" = ["AI"] ∧ ¬(2 < (((extractEntities "AI").headD "").length)) := by
  refine ⟨by decide, by decide⟩

/-- Claim C2, amended: for every text, `extractEntities` returns no
duplicate entries and every returned string has length at least 2 (the
single-word pass guarantees length > 2 and the multi-word pass
length > 5, but the acronym pass admits length-2 tokens). -/
theorem extractEntities_nodup_and_min_length (text : String) :
    (extractEntities text).Nodup ∧ ∀ s ∈ extractEntities text, 2 ≤ s.length :=
  extractEntities_inv text

/-- Witness for C2's amended theorem at a concrete input. -/
theorem extractEntities_nodup_and_min_length_witness :
    (extractEntities "NASA and DARPA fund Science").Nodup ∧
      2 ≤ ("NASA" : String).length :=
  ⟨(extractEntities_nodup_and_min_length "NASA and DARPA fund Science").1,
   (extractEntities_nodup_and_min_length "NASA and DARPA fund Science").2
     "NASA" (by decide)⟩

/-- Claim C6: the fallback analysis produces at most twelve nodes, for
every text and every outcome of the random draws. -/
theorem fallback_nodes_length_le_twelve (text : String)
    (rand : Nat → Nat → Bool) (now : Nat) :
    (generateFallbackAnalysis text rand now).graph.nodes.length ≤ 12 := by
  have h : (generateFallbackAnalysis text rand now).graph.nodes
      = (fallbackUniqueNodes text).enum.map (fallbackMkNode text) := rfl
  rw [h, List.length_map, List.enum_length]
  unfold fallbackUniqueNodes
  exact List.length_take_le _ _

/-- Claim C8: on the empty string the (no-credential) analysis returns
zero nodes, zero edges, and a non-empty questions list containing the
fixed generic prompt, for every enrichment outcome and random oracle —
and, being a total function, it throws nothing. -/
theorem empty_text_analysis (o : EnrichmentOutcome) (rand : Nat → Nat → Bool)
    (now : Nat) :
    (analyzeText false o "" rand now).graph.nodes = []
    ∧ (analyzeText false o "" rand now).graph.edges = []
    ∧ (analyzeText false o "" rand now).insights.questions ≠ []
    ∧ "What additional context would help understand these relationships?"
        ∈ (analyzeText false o "" rand now).insights.questions := by
  have hq : (analyzeText false o "" rand now).insights.questions
      = ["What additional context would help understand these relationships?"] := rfl
  refine ⟨rfl, rfl, ?_, ?_⟩
  · rw [hq]
    exact List.cons_ne_nil _ _
  · rw [hq]
    exact List.mem_singleton.mpr rfl

/-- Counterexample to claim C3 as stated: node ids are lowercased slugs
of the labels, so the distinct labels `Apple` and `apple` share the id
`apple`, and their co-occurrence edge is a self-loop by id — `source !==
target` fails. -/
theorem fallback_edge_self_loop_cex :
    ¬(∀ e ∈ (generateFallbackAnalysis "Apple apple" (fun _ _ => false) 0).graph.edges,
        e.source ≠ e.target) := by decide

/-- Claim C3, amended: every edge of a fallback analysis has weight
exactly `0.4` or `0.8` (`2/5` or `4/5`), and joins two nodes at distinct
positions `i < j` of the node list, whose labels are distinct; its source
and target are those nodes' ids, which coincide only when the two
distinct labels normalize to the same lowercase slug. -/
theorem fallback_edge_weight_and_endpoints (text : String)
    (rand : Nat → Nat → Bool) (now : Nat) :
    ∀ e ∈ (generateFallbackAnalysis text rand now).graph.edges,
      (e.weight = 2/5 ∨ e.weight = 4/5) ∧
      ∃ i j n1 n2, i < j ∧
        (generateFallbackAnalysis text rand now).graph.nodes.get? i = some n1 ∧
        (generateFallbackAnalysis text rand now).graph.nodes.get? j = some n2 ∧
        e.source = n1.id ∧ e.target = n2.id ∧ n1.label ≠ n2.label := by
  intro e he
  have he2 : e ∈ mkFallbackEdges (fallbackNodes text) text rand := he
  obtain ⟨i, j, n1, n2, hij, h1, h2, hsrc, htgt, _, hw⟩ := mem_mkFallbackEdges he2
  have hnodes : (generateFallbackAnalysis text rand now).graph.nodes
      = fallbackNodes text := rfl
  refine ⟨?_, i, j, n1, n2, hij, by rw [hnodes]; exact h1, by rw [hnodes]; exact h2,
    hsrc, htgt, fallbackNodes_get?_label_ne (Nat.ne_of_lt hij) h1 h2⟩
  rcases hw with hw | hw
  · exact Or.inl (by rw [hw, mkRat_two_fifths])
  · exact Or.inr (by rw [hw, mkRat_four_fifths])

/-- Witness for C3's amended theorem: the weight disjunction at the
concrete self-ID edge of `"Apple apple"`. -/
theorem fallback_edge_weight_and_endpoints_witness :
    ((⟨"apple", "apple", mkRat 4 5, "co-occurs"⟩ : GEdge).weight = 2/5 ∨
     (⟨"apple", "apple", mkRat 4 5, "co-occurs"⟩ : GEdge).weight = 4/5) :=
  (fallback_edge_weight_and_endpoints "Apple apple" (fun _ _ => false) 0
    ⟨"apple", "apple", mkRat 4 5, "co-occurs"⟩ (by decide)).1

/-- Counterexample to claim C4 as stated: on `"Apple apple"` the fallback
analysis carries two distinct nodes (labels `Apple` and `apple`) with the
same id `apple`. -/
theorem fallback_duplicate_node_ids_cex :
    ((generateFallbackAnalysis "Apple apple" (fun _ _ => true) 0).graph.nodes.map
        (fun n => n.id)) = ["apple", "apple"]
    ∧ ((generateFallbackAnalysis "Apple apple" (fun _ _ => true) 0).graph.nodes.map
        (fun n => n.label)) = ["Apple", "apple"]
    ∧ ¬((generateFallbackAnalysis "Apple apple" (fun _ _ => true) 0).graph.nodes.map
        (fun n => n.id)).Nodup := by
  refine ⟨by decide, by decide, by decide⟩

/-- Claim C4, amended: within one fallback analysis result the node
labels are pairwise distinct (the candidate list is deduplicated by
exact string identity); the node ids — lowercased, hyphenated slugs of
the labels — need not be distinct, since two distinct labels can
normalize to the same slug. -/
theorem fallback_node_labels_nodup (text : String) (rand : Nat → Nat → Bool)
    (now : Nat) :
    (((generateFallbackAnalysis text rand now).graph.nodes).map
      (fun n => n.label)).Nodup := by
  have hnodes : (generateFallbackAnalysis text rand now).graph.nodes
      = fallbackNodes text := rfl
  rw [hnodes, fallbackNodes_map_label]
  exact fallbackUniqueNodes_nodup text

/-- Counterexample to claim C7 as stated: in
`"Apple apple. Banana banana."` the nodes `Apple` (cluster 0) and
`banana` (cluster 2) never co-occur in a sentence and sit in different
clusters, yet when the draws succeed the result contains an edge whose
source id and target id are exactly those two nodes' ids (the same-cluster
pair `Apple`/`Banana` emits an edge carrying the colliding slugs
`apple` and `banana`). -/
theorem fallback_cross_cluster_edge_ids_cex :
    ((fallbackNodes "Apple apple. Banana banana.").get? 0).map
        (fun n => (n.label, n.cluster, n.id)) = some ("Apple", 0, "apple")
    ∧ ((fallbackNodes "Apple apple. Banana banana.").get? 4).map
        (fun n => (n.label, n.cluster, n.id)) = some ("banana", 2, "banana")
    ∧ checkCoOccurrence "Apple" "banana" "Apple apple. Banana banana." = false
    ∧ ((generateFallbackAnalysis "Apple apple. Banana banana."
          (fun _ _ => true) 0).graph.edges.filter
        (fun e => e.source == "apple" && e.target == "banana")) ≠ [] := by
  refine ⟨by decide, by decide, by decide, by decide⟩

/-- Claim C7, amended: the edge loop itself never creates an edge from a
pair that neither co-occurs in a sentence nor shares a cluster — every
edge of a fallback result arises from a pair `i < j` whose labels
co-occur or whose clusters are equal, and random sparsification applies
only to same-cluster pairs.  (An edge bearing the ids of a
non-co-occurring, different-cluster node pair can still appear when
another pair's slugs collide with theirs, as the counterexample shows.) -/
theorem fallback_edges_need_cooccur_or_shared_cluster (text : String)
    (rand : Nat → Nat → Bool) (now : Nat) :
    ∀ e ∈ (generateFallbackAnalysis text rand now).graph.edges,
      ∃ i j n1 n2, i < j ∧
        (generateFallbackAnalysis text rand now).graph.nodes.get? i = some n1 ∧
        (generateFallbackAnalysis text rand now).graph.nodes.get? j = some n2 ∧
        e.source = n1.id ∧ e.target = n2.id ∧
        (checkCoOccurrence n1.label n2.label text = true ∨
          n1.cluster = n2.cluster) := by
  intro e he
  have he2 : e ∈ mkFallbackEdges (fallbackNodes text) text rand := he
  obtain ⟨i, j, n1, n2, hij, h1, h2, hsrc, htgt, hcond, _⟩ := mem_mkFallbackEdges he2
  have hnodes : (generateFallbackAnalysis text rand now).graph.nodes
      = fallbackNodes text := rfl
  exact ⟨i, j, n1, n2, hij, by rw [hnodes]; exact h1, by rw [hnodes]; exact h2,
    hsrc, htgt, hcond⟩

/-- Witness for C7's amended theorem at a concrete edge of the
counterexample text. -/
theorem fallback_edges_need_cooccur_or_shared_cluster_witness :
    ∃ i j n1 n2, i < j ∧
      (generateFallbackAnalysis "Apple apple. Banana banana."
        (fun _ _ => true) 0).graph.nodes.get? i = some n1 ∧
      (generateFallbackAnalysis "Apple apple. Banana banana."
        (fun _ _ => true) 0).graph.nodes.get? j = some n2 ∧
      (⟨"apple", "banana", mkRat 2 5, "related"⟩ : GEdge).source = n1.id ∧
      (⟨"apple", "banana", mkRat 2 5, "related"⟩ : GEdge).target = n2.id ∧
      (checkCoOccurrence n1.label n2.label "Apple apple. Banana banana." = true ∨
        n1.cluster = n2.cluster) :=
  fallback_edges_need_cooccur_or_shared_cluster "Apple apple. Banana banana."
    (fun _ _ => true) 0 ⟨"apple", "banana", mkRat 2 5, "related"⟩ (by decide)

/-- Claim C5: two runs of the engine on identical text with no credential
yield identical node lists — the nodes do not depend on the enrichment
outcome, the random draws or the clock — and identical co-occurrence
edges (the weight-`4/5`, i.e. `0.8`, edges); any edge present in one run
and absent from the other weighs `2/5` (`0.4`), i.e. comes from the
random same-cluster sparsification branch. -/
theorem fallback_two_runs (text : String) (o1 o2 : EnrichmentOutcome)
    (r1 r2 : Nat → Nat → Bool) (now1 now2 : Nat) :
    (analyzeText false o1 text r1 now1).graph.nodes
      = (analyzeText false o2 text r2 now2).graph.nodes
    ∧ (analyzeText false o1 text r1 now1).graph.edges.filter
        (fun e => decide (e.weight = mkRat 4 5))
      = (analyzeText false o2 text r2 now2).graph.edges.filter
        (fun e => decide (e.weight = mkRat 4 5))
    ∧ ∀ e ∈ (analyzeText false o1 text r1 now1).graph.edges,
        e ∉ (analyzeText false o2 text r2 now2).graph.edges → e.weight = 2/5 := by
  refine ⟨rfl, ?_, ?_⟩
  · have h1 : (analyzeText false o1 text r1 now1).graph.edges
        = mkFallbackEdges (fallbackNodes text) text r1 := rfl
    have h2 : (analyzeText false o2 text r2 now2).graph.edges
        = mkFallbackEdges (fallbackNodes text) text r2 := rfl
    rw [h1, h2, filter_fallbackEdges_eq, filter_fallbackEdges_eq]
  · intro e he hne
    have he2 : e ∈ mkFallbackEdges (fallbackNodes text) text r1 := he
    obtain ⟨_, _, _, _, _, _, _, _, _, _, hw⟩ := mem_mkFallbackEdges he2
    rcases hw with hw | hw
    · rw [hw, mkRat_two_fifths]
    · exfalso
      have hf1 : e ∈ (mkFallbackEdges (fallbackNodes text) text r1).filter
          (fun e => decide (e.weight = mkRat 4 5)) :=
        List.mem_filter.mpr ⟨he2, by simp [hw]⟩
      rw [filter_fallbackEdges_eq] at hf1
      have hf2 : e ∈ (mkFallbackEdges (fallbackNodes text) text r2).filter
          (fun e => decide (e.weight = mkRat 4 5)) := by
        rw [filter_fallbackEdges_eq]
        exact hf1
      exact hne (List.mem_filter.mp hf2).1

/-- Witness for C5: a concrete random-branch edge present under an
all-true oracle and absent under an all-false oracle indeed weighs
`0.4`. -/
theorem fallback_two_runs_witness :
    (⟨"apple", "banana", mkRat 2 5, "related"⟩ : GEdge).weight = 2/5 :=
  (fallback_two_runs "Apple apple. Banana banana." .batchError .batchError
    (fun _ _ => true) (fun _ _ => false) 0 0).2.2
    ⟨"apple", "banana", mkRat 2 5, "related"⟩ (by decide) (by decide)

/-- Counterexample to claim C9 as stated: on `"NASA"` no lowercased word
is longer than four characters, the frequency map is empty,
`Math.max(...[])` is `-Infinity`, and the single node's score is `-0` —
not in `(0, 1]`. -/
theorem fallback_node_score_zero_cex :
    ((generateFallbackAnalysis "NASA" (fun _ _ => true) 0).graph.nodes.map
        (fun n => n.score)) = [0]
    ∧ ¬(0 < (0 : Rat)) :=
  ⟨by decide, lt_irrefl 0⟩

/-- Claim C9, amended: in the fallback path every node's score is its
looked-up frequency (defaulting to `1` when the lowercased label is
absent from the frequency map) divided by the maximum observed frequency,
and lies in `(0, 1]` — provided the frequency map is nonempty.  When the
map is empty the score is `0` (the JS quotient by `-Infinity`). -/
theorem fallback_node_score_spec (text : String) (rand : Nat → Nat → Bool)
    (now : Nat) :
    ∀ node ∈ (generateFallbackAnalysis text rand now).graph.nodes,
      (fallbackWordFreq text = [] → node.score = 0)
      ∧ (fallbackWordFreq text ≠ [] →
          node.score = (((lookupFreq (fallbackWordFreq text)
                (lowerStr node.label)).getD 1 : Nat) : Rat)
              / ((maxFreq (fallbackWordFreq text) : Nat) : Rat)
          ∧ 0 < node.score ∧ node.score ≤ 1) := by
  intro node hnode
  have h2 : node ∈ (fallbackUniqueNodes text).enum.map (fallbackMkNode text) := hnode
  obtain ⟨p, hp, rfl⟩ := List.mem_map.mp h2
  have hscore : (fallbackMkNode text p).score
      = fallbackNodeScore (fallbackWordFreq text)
          ((lookupFreq (fallbackWordFreq text) (lowerStr p.2)).getD 1) := rfl
  have hlabel : (fallbackMkNode text p).label = p.2 := rfl
  constructor
  · intro hm
    rw [hscore]
    unfold fallbackNodeScore
    rw [if_pos (by rw [hm]; rfl)]
  · intro hm
    have hie : ¬((fallbackWordFreq text).isEmpty = true) := by
      intro hh
      exact hm (List.isEmpty_iff.mp hh)
    have hvals : ∀ q ∈ fallbackWordFreq text, 1 ≤ q.2 :=
      buildFreq_val_ge_one (fallbackWords text)
    have hmax1 : 1 ≤ maxFreq (fallbackWordFreq text) := one_le_maxFreq hm hvals
    have hfreq : 1 ≤ (lookupFreq (fallbackWordFreq text) (lowerStr p.2)).getD 1
        ∧ (lookupFreq (fallbackWordFreq text) (lowerStr p.2)).getD 1
          ≤ maxFreq (fallbackWordFreq text) := by
      cases hl : lookupFreq (fallbackWordFreq text) (lowerStr p.2) with
      | none => exact ⟨le_refl 1, hmax1⟩
      | some c =>
        obtain ⟨q, hqm, hqc⟩ := lookupFreq_mem hl
        exact ⟨hqc ▸ hvals q hqm, hqc ▸ val_le_maxFreq hqm⟩
    have hmkd : (fallbackMkNode text p).score
        = (((lookupFreq (fallbackWordFreq text) (lowerStr p.2)).getD 1 : Nat) : Rat)
            / ((maxFreq (fallbackWordFreq text) : Nat) : Rat) := by
      rw [hscore]
      unfold fallbackNodeScore
      rw [if_neg hie, Rat.mkRat_eq_div]
      push_cast
      ring
    have hmaxpos : (0 : Rat) < ((maxFreq (fallbackWordFreq text) : Nat) : Rat) := by
      exact_mod_cast Nat.lt_of_lt_of_le Nat.zero_lt_one hmax1
    have hfreqpos : (0 : Rat)
        < (((lookupFreq (fallbackWordFreq text) (lowerStr p.2)).getD 1 : Nat) : Rat) := by
      exact_mod_cast Nat.lt_of_lt_of_le Nat.zero_lt_one hfreq.1
    refine ⟨by rw [hmkd, hlabel], ?_, ?_⟩
    · rw [hmkd]
      exact div_pos hfreqpos hmaxpos
    · rw [hmkd]
      rw [div_le_one hmaxpos]
      exact_mod_cast hfreq.2

/-- Witness for C9's amended theorem: the `Apple` node of
`"Apple apple"` has score `2/2 = 1`, inside `(0, 1]`. -/
theorem fallback_node_score_spec_witness :
    0 < (fallbackMkNode "Apple apple" (0, "Apple")).score ∧
      (fallbackMkNode "Apple apple" (0, "Apple")).score ≤ 1 := by
  have h := fallback_node_score_spec "Apple apple" (fun _ _ => true) 0
    (fallbackMkNode "Apple apple" (0, "Apple")) (by decide)
  have h2 := h.2 (by decide)
  exact ⟨h2.2.1, h2.2.2⟩

/-- Counterexample to claim C10 as stated: the class defines
`getColorForType` twice and the later, bracket-lookup definition wins at
runtime.  The type `Personhood` contains the table key `Person` (color
`#3B82F6`) as a substring, yet the effective mapping — also as used by
the enriched node construction — returns the neutral gray `#6B7280`
(only the shadowed first definition matches by substring).  And the type
`toString`, which contains no table key at all, does not return gray
either: the bracket lookup finds the truthy inherited
`Object.prototype.toString`, bypassing the `||` fallback. -/
theorem getColorForType_substring_cex :
    strIncludes ("Personhood") ("Person") = true
    ∧ ("Person", "#3B82F6") ∈ colorMapFallback
    ∧ getColorForType ("Personhood") = .str "#6B7280"
    ∧ getColorForTypeShadowed ("Personhood") = "#3B82F6"
    ∧ (enrichedMkNode (0, ⟨"kg:/m/1", ["Personhood"], "Alice", none, none, 7⟩)).color
        = .str "#6B7280"
    ∧ getColorForType ("toString") = .protoValue "toString"
    ∧ (enrichedMkNode (0, ⟨"kg:/m/2", ["toString"], "Bob", none, none, 7⟩)).color
        = .protoValue "toString" := by
  refine ⟨by decide, by decide, by decide, by decide, by decide, by decide, by decide⟩

/-- Claim C10, amended: the type-to-color mapping in effect at runtime
(the second of the two same-named definitions, the one both node
constructions call) is the JS bracket lookup `colorMap[type] ||
'#6B7280'`: a type equal to an own key of the table (which includes
`Entity` and `Concept`) maps to that entry's color; a type naming an
inherited `Object.prototype` property yields that truthy inherited
non-string value, so the gray fallback is not taken; every other type —
including one that merely contains a key as a proper substring — maps to
the neutral gray `#6B7280`. -/
theorem getColorForType_exact_lookup (t : String) :
    (∀ c, (t, c) ∈ colorMapFallback → getColorForType t = .str c)
    ∧ ((∀ p ∈ colorMapFallback, p.1 ≠ t) →
        objectPrototypeProps.contains t = true →
        getColorForType t = .protoValue t)
    ∧ ((∀ p ∈ colorMapFallback, p.1 ≠ t) →
        objectPrototypeProps.contains t = false →
        getColorForType t = .str "#6B7280") := by
  refine ⟨?_, ?_, ?_⟩
  · intro c hm
    unfold getColorForType
    rw [find?_assoc_key (by decide) hm]
  · intro hnone hproto
    unfold getColorForType
    rw [List.find?_eq_none.mpr (fun p hp => by simp [hnone p hp])]
    rw [if_pos hproto]
  · intro hnone hproto
    unfold getColorForType
    rw [List.find?_eq_none.mpr (fun p hp => by simp [hnone p hp])]
    rw [if_neg (by rw [hproto]; exact Bool.false_ne_true)]

/-- Witness for C10's amended theorem on all three branches. -/
theorem getColorForType_exact_lookup_witness :
    getColorForType ("Person") = .str "#3B82F6"
    ∧ getColorForType ("hasOwnProperty") = .protoValue "hasOwnProperty"
    ∧ getColorForType ("Zebra") = .str "#6B7280" :=
  ⟨(getColorForType_exact_lookup "Person").1 "#3B82F6" (by decide),
   (getColorForType_exact_lookup "hasOwnProperty").2.1 (by decide) (by decide),
   (getColorForType_exact_lookup "Zebra").2.2 (by decide) (by decide)⟩
